import Mathlib

/-!
Shallow embedding of the streaming transfer-and-verification engine of the
`migration-db` repository (Go), centred on
`src/internal/migration/verifier.go` (package `migration`) and the
`Manager.Migrate` orchestrator.  Byte slices are modelled as `List Nat`
(each element a byte value), Go's `([]byte, error)` returns as
`Except String (List Nat)`, and the per-iteration results of
`io.ReadFull` as explicit `ReadResult` values, so that the chunk-comparison
loop becomes a pure recursive function over the two lists of read results.
-/

/-- The byte values of an ASCII string, used to transcribe the byte-string
literals of the Go source. -/
def strBytes (s : String) : List Nat := s.data.map Char.toNat

/-- Split a byte list at every newline byte (10), mirroring
`bytes.Split(chunk, []byte("\n"))`: the result is never empty, and an empty
input yields `[[]]`. -/
def splitB : List Nat → List (List Nat)
  | [] => [[]]
  | b :: rest =>
    if b = 10 then [] :: splitB rest
    else (b :: (splitB rest).headI) :: (splitB rest).tail

/-- Join byte lists with a newline byte between consecutive elements,
mirroring `bytes.Join(normalized, []byte("\n"))`. -/
def joinB : List (List Nat) → List Nat
  | [] => []
  | [l] => l
  | l :: l' :: ls => l ++ 10 :: joinB (l' :: ls)

/-- Substring test on byte lists, mirroring `bytes.Contains(line, pat)`. -/
def bytesContains : List Nat → List Nat → Bool
  | xs, pat =>
    match xs with
    | [] => pat.isEmpty
    | _ :: rest => pat.isPrefixOf xs || bytesContains rest pat

/-- The noise-line test of `normalizeMySQLDump`
(src/internal/migration/verifier.go lines 231-234): a line is dropped when
it starts with one of the three MySQL dump banner markers. -/
def mysqlNoiseLine (line : List Nat) : Bool :=
  (strBytes "-- Dump completed on").isPrefixOf line ||
  (strBytes "-- MySQL dump").isPrefixOf line ||
  (strBytes "-- Server version").isPrefixOf line

/-- The noise-line test of `normalizeMongoDBDump`
(src/internal/migration/verifier.go lines 250-252): a line is dropped when
it contains an embedded timestamp or date marker. -/
def mongoNoiseLine (line : List Nat) : Bool :=
  bytesContains line (strBytes "\"$timestamp\"") ||
  bytesContains line (strBytes "\"$date\"")

/-- `normalizeMySQLDump` (src/internal/migration/verifier.go lines 224-240):
split the chunk into lines, drop noise lines, rejoin; the error result is
always nil in the source, hence always `Except.ok` here. -/
def normalizeMySQLDump (chunk : List Nat) : Except String (List Nat) :=
  Except.ok (joinB ((splitB chunk).filter (fun l => !mysqlNoiseLine l)))

/-- `normalizeMongoDBDump` (src/internal/migration/verifier.go lines
243-258): same shape as the MySQL normalizer with the MongoDB noise test. -/
def normalizeMongoDBDump (chunk : List Nat) : Except String (List Nat) :=
  Except.ok (joinB ((splitB chunk).filter (fun l => !mongoNoiseLine l)))

/-- `DatabaseType` (the `migration` package's dialect enumeration with
values `postgres`, `mysql`, `mongodb`). -/
inductive DatabaseType
  | Postgres
  | MySQL
  | MongoDB
deriving DecidableEq

/-- A `Dumper` capability: its `GetType` dialect tag and the outcome of its
`Dump(ctx, w)` call, modelled as the byte stream it writes on success or
the error it returns. -/
structure Dumper where
  GetType : DatabaseType
  Dump : Except String (List Nat)

/-- The error position of one `io.ReadFull` call: nil, `io.EOF`,
`io.ErrUnexpectedEOF`, or a genuine (hard) read error with its message. -/
inductive ReadErr
  | noErr
  | eof
  | unexpectedEof
  | hard (msg : String)
deriving DecidableEq

/-- True for the two end-of-stream errors tolerated by `compareReaders`. -/
def ReadErr.isEnd : ReadErr → Bool
  | .eof => true
  | .unexpectedEof => true
  | _ => false

/-- The message of a hard read error, `none` for nil/EOF results; this is
the test `err != nil && err != io.EOF && !errors.Is(err, io.ErrUnexpectedEOF)`. -/
def ReadErr.hardMsg : ReadErr → Option String
  | .hard m => some m
  | _ => none

/-- One `io.ReadFull` result: the bytes actually read (`chunk[:n]`, so
`data.length` is the Go `n`) and the accompanying error value. -/
structure ReadResult where
  data : List Nat
  err : ReadErr
deriving DecidableEq

/-- The sequence of `io.ReadFull(r, buf)` results produced by reading a
finite byte stream with a buffer of `cs` bytes: full chunks with nil error,
then either a final short non-empty read with `io.ErrUnexpectedEOF` or,
when the stream length is an exact multiple of `cs`, a final empty read
with `io.EOF`.  Fuel-driven so the definition is structurally recursive;
`bs.length + 1` steps always suffice when `cs > 0` (the verifier's chunk
size is always positive, see the C9 invariant). -/
def readFullSeqAux (fuel cs : Nat) (bs : List Nat) : List ReadResult :=
  match fuel with
  | 0 => []
  | fuel + 1 =>
    if bs.length < cs then
      if bs.isEmpty then [⟨[], ReadErr.eof⟩] else [⟨bs, ReadErr.unexpectedEof⟩]
    else
      ⟨bs.take cs, ReadErr.noErr⟩ :: readFullSeqAux fuel cs (bs.drop cs)

/-- The full read-result sequence of a byte stream under chunk size `cs`. -/
def readFullSeq (cs : Nat) (bs : List Nat) : List ReadResult :=
  readFullSeqAux (bs.length + 1) cs bs

/-- The comparator's error outcomes, each carrying the message produced at
the corresponding return site of `compareReaders`: a wrapped source read
error, a wrapped target read error, or a propagated normalization error. -/
inductive CmpError
  | readSource (msg : String)
  | readTarget (msg : String)
  | normalize (msg : String)
deriving DecidableEq

/-- The `(bool, error)` result of `compareReaders`: `verdict b` is
`(b, nil)` (so `verdict true` is Equal and `verdict false` is NotEqual)
and `fail e` is `(false, err)` with `err` non-nil. -/
inductive CmpOutcome
  | verdict (equal : Bool)
  | fail (e : CmpError)
deriving DecidableEq

/-- The per-iteration chunk comparison of `compareReaders`
(src/internal/migration/verifier.go lines 86-116): Postgres chunks are
compared raw, MySQL and MongoDB chunks after normalization, with
normalization errors propagated unwrapped. -/
def compareChunks (dt : DatabaseType) (s t : List Nat) : Except String Bool :=
  match dt with
  | .Postgres => Except.ok (s == t)
  | .MySQL =>
    match normalizeMySQLDump s with
    | .error e => .error e
    | .ok ns =>
      match normalizeMySQLDump t with
      | .error e => .error e
      | .ok nt => .ok (ns == nt)
  | .MongoDB =>
    match normalizeMongoDBDump s with
    | .error e => .error e
    | .ok ns =>
      match normalizeMongoDBDump t with
      | .error e => .error e
      | .ok nt => .ok (ns == nt)

/-- The chunk loop of `compareReaders`
(src/internal/migration/verifier.go lines 69-132) over the two streams'
read-result sequences, for an execution whose context is never cancelled
(the `select` always takes its `default` branch).  Each iteration consumes
one read result per side, in the source's order of checks: hard source
read error, hard target read error, chunk comparison (any inequality
returns NotEqual at once), then the end-of-stream resolution.  The
function returns `none` when either sequence is exhausted with the loop
still running, which cannot happen for well-formed streams (every
`readFullSeq` ends in an EOF-class result). -/
def compareChunksLoop (dt : DatabaseType) : List ReadResult → List ReadResult → Option CmpOutcome
  | s :: ss, t :: ts =>
    match s.err.hardMsg with
    | some m => some (CmpOutcome.fail (CmpError.readSource ("error reading source: " ++ m)))
    | none =>
      match t.err.hardMsg with
      | some m => some (CmpOutcome.fail (CmpError.readTarget ("error reading target: " ++ m)))
      | none =>
        match compareChunks dt s.data t.data with
        | .error e => some (CmpOutcome.fail (CmpError.normalize e))
        | .ok eq =>
          if eq = false then some (CmpOutcome.verdict false)
          else if s.err.isEnd then
            if t.err.isEnd then some (CmpOutcome.verdict (s.data.length == t.data.length))
            else some (CmpOutcome.verdict false)
          else if t.err.isEnd then some (CmpOutcome.verdict false)
          else compareChunksLoop dt ss ts
  | _, _ => none

/-- `defaultChunkSize` (10 MiB). -/
def defaultChunkSize : Int := 10 * 1024 * 1024

/-- `DatabaseVerifier` with its two dumpers and chunk size (a Go `int`,
modelled as `Int`). -/
structure DatabaseVerifier where
  sourceDumper : Dumper
  targetDumper : Dumper
  chunkSize : Int

/-- `WithChunkSize` (src/internal/migration/verifier.go lines 32-38):
overrides the chunk size only when the argument is positive. -/
def WithChunkSize (size : Int) : DatabaseVerifier → DatabaseVerifier :=
  fun v => if size > 0 then { v with chunkSize := size } else v

/-- `NewDatabaseVerifier` (src/internal/migration/verifier.go lines
41-62): rejects a nil dumper or mismatched database types, otherwise
builds the verifier with the default chunk size and applies the options in
order. -/
def NewDatabaseVerifier (sourceDumper targetDumper : Option Dumper)
    (opts : List (DatabaseVerifier → DatabaseVerifier)) :
    Except String DatabaseVerifier :=
  match sourceDumper, targetDumper with
  | some sd, some td =>
    if sd.GetType = td.GetType then
      Except.ok (opts.foldl (fun v opt => opt v)
        { sourceDumper := sd, targetDumper := td, chunkSize := defaultChunkSize })
    else Except.error "source and target databases must be of the same type"
  | _, _ => Except.error "source and target dumpers must not be nil"

/-- `compareReaders` over two concrete byte streams: cut each stream into
`io.ReadFull` results with the verifier's chunk size and run the chunk
loop under the source dumper's database type. -/
def compareReaders (v : DatabaseVerifier) (source target : List Nat) : Option CmpOutcome :=
  compareChunksLoop v.sourceDumper.GetType
    (readFullSeq v.chunkSize.toNat source) (readFullSeq v.chunkSize.toNat target)

/-- The three concurrent legs of `VerifyContent`: the source dump, the
target dump, and the comparison goroutine. -/
inductive Leg
  | sourceDump
  | targetDump
  | comparison
deriving DecidableEq

/-- The message the comparison goroutine posts on a mismatch
(src/internal/migration/verifier.go line 168). -/
def mismatchMsg : String :=
  "content verification failed: source and target databases do not match"

/-- The value `VerifyContent` returns for one received leg outcome
(src/internal/migration/verifier.go lines 178-189): dump errors are
wrapped with their side's message, a comparison error is returned as is,
and a nil outcome falls through to `return nil`. -/
def legResolve : Leg × Option String → Option String
  | (Leg.sourceDump, some e) => some ("failed to dump source database: " ++ e)
  | (Leg.targetDump, some e) => some ("failed to dump target database: " ++ e)
  | (Leg.comparison, some e) => some e
  | (_, none) => none

/-- `VerifyContent`'s resolution step (src/internal/migration/verifier.go
lines 174-192) as a function of the arrival order of the three leg
outcomes: the single `select` receives whichever outcome arrives first and
the function returns immediately from that one case — wrapped error if it
is non-nil, success otherwise — never looking at the remaining legs. -/
def VerifyContent (arrivals : List (Leg × Option String)) : Option String :=
  match arrivals with
  | [] => none
  | a :: _ => legResolve a

/-- The outcome the dump goroutine of `Manager.Migrate` posts on `errChan`
(src/unnamed/part_001 lines 49-59): the dump error wrapped with
`dump failed`, or nil on success. -/
def dumpLegOutcome (r : Option String) : Option String :=
  r.map (fun e => "dump failed: " ++ e)

/-- The outcome the restore goroutine of `Manager.Migrate` posts on
`errChan` (src/unnamed/part_001 lines 62-70): the restore error wrapped
with `restore failed`, or nil on success. -/
def restoreLegOutcome (r : Option String) : Option String :=
  r.map (fun e => "restore failed: " ++ e)

/-- The wait loop of `Manager.Migrate` (src/unnamed/part_001 lines 73-80),
unrolled for its two iterations over the outcomes in arrival order: return
the first non-nil outcome received; only after both outcomes have been
received as nil does it return success. -/
def migrateWait (first second : Option String) : Option String :=
  match first with
  | some e => some e
  | none =>
    match second with
    | some e => some e
    | none => none

/-- The 64 SHA-256 round constants (crypto/sha256), in decimal. -/
def sha256K : List Nat :=
  [1116352408, 1899447441, 3049323471, 3921009573, 961987163, 1508970993,
   2453635748, 2870763221, 3624381080, 310598401, 607225278, 1426881987,
   1925078388, 2162078206, 2614888103, 3248222580, 3835390401, 4022224774,
   264347078, 604807628, 770255983, 1249150122, 1555081692, 1996064986,
   2554220882, 2821834349, 2952996808, 3210313671, 3336571891, 3584528711,
   113926993, 338241895, 666307205, 773529912, 1294757372, 1396182291,
   1695183700, 1986661051, 2177026350, 2456956037, 2730485921, 2820302411,
   3259730800, 3345764771, 3516065817, 3600352804, 4094571909, 275423344,
   430227734, 506948616, 659060556, 883997877, 958139571, 1322822218,
   1537002063, 1747873779, 1955562222, 2024104815, 2227730452, 2361852424,
   2428436474, 2756734187, 3204031479, 3329325298]

/-- The SHA-256 initial hash state, in decimal. -/
def sha256H0 : List Nat :=
  [1779033703, 3144134277, 1013904242, 2773480762, 1359893119, 2600822924, 528734635, 1541459225]

/-- Right rotation of a 32-bit word. -/
def rotr32 (n x : Nat) : Nat := ((x >>> n) ||| (x <<< (32 - n))) % 4294967296

/-- Big-endian byte expansion of `v` into `k` bytes. -/
def beBytes (k v : Nat) : List Nat :=
  (List.range k).reverse.map (fun i => (v >>> (8 * i)) % 256)

/-- SHA-256 message padding: a 0x80 byte, zero bytes up to 56 mod 64, then
the bit length as an 8-byte big-endian integer. -/
def sha256Pad (msg : List Nat) : List Nat :=
  msg ++ 0x80 :: List.replicate ((119 - msg.length % 64) % 64) 0 ++ beBytes 8 (msg.length * 8)

/-- Cut the padded message into 64-byte blocks (fuel-driven structural
recursion; the fuel `bs.length` always suffices). -/
def toBlocksAux (fuel : Nat) (bs : List Nat) : List (List Nat) :=
  match fuel, bs with
  | _, [] => []
  | 0, _ => []
  | fuel + 1, b :: rest => (b :: rest).take 64 :: toBlocksAux fuel ((b :: rest).drop 64)

/-- The 64-byte blocks of a padded message. -/
def toBlocks (bs : List Nat) : List (List Nat) := toBlocksAux bs.length bs

/-- The 16 big-endian 32-bit words of one 64-byte block. -/
def blockWords (block : List Nat) : List Nat :=
  (List.range 16).map (fun i =>
    block.getD (4 * i) 0 * 16777216 + block.getD (4 * i + 1) 0 * 65536 +
    block.getD (4 * i + 2) 0 * 256 + block.getD (4 * i + 3) 0)

/-- Extend a message schedule by `steps` further words. -/
def sha256Extend (ws : List Nat) : Nat → List Nat
  | 0 => ws
  | steps + 1 =>
    let w15 := ws.getD (ws.length - 15) 0
    let w2 := ws.getD (ws.length - 2) 0
    let s0 := rotr32 7 w15 ^^^ rotr32 18 w15 ^^^ (w15 >>> 3)
    let s1 := rotr32 17 w2 ^^^ rotr32 19 w2 ^^^ (w2 >>> 10)
    sha256Extend (ws ++ [(ws.getD (ws.length - 16) 0 + s0 + ws.getD (ws.length - 7) 0 + s1) % 4294967296]) steps

/-- One SHA-256 compression round on the 8-word working state. -/
def sha256Round (st : List Nat) (kw : Nat × Nat) : List Nat :=
  let a := st.getD 0 0
  let b := st.getD 1 0
  let c := st.getD 2 0
  let d := st.getD 3 0
  let e := st.getD 4 0
  let f := st.getD 5 0
  let g := st.getD 6 0
  let h := st.getD 7 0
  let S1 := rotr32 6 e ^^^ rotr32 11 e ^^^ rotr32 25 e
  let ch := (e &&& f) ^^^ ((e ^^^ 0xffffffff) &&& g)
  let t1 := (h + S1 + ch + kw.1 + kw.2) % 4294967296
  let S0 := rotr32 2 a ^^^ rotr32 13 a ^^^ rotr32 22 a
  let mj := (a &&& b) ^^^ (a &&& c) ^^^ (b &&& c)
  let t2 := (S0 + mj) % 4294967296
  [(t1 + t2) % 4294967296, a, b, c, (d + t1) % 4294967296, e, f, g]

/-- Process one 64-byte block into the running hash state. -/
def sha256Block (h : List Nat) (block : List Nat) : List Nat :=
  let w := sha256Extend (blockWords block) 48
  let st := (sha256K.zip w).foldl sha256Round h
  (h.zip st).map (fun p => (p.1 + p.2) % 4294967296)

/-- SHA-256 of a byte sequence: the 32-byte digest, as produced by the
`crypto/sha256` accumulator `GetChecksum` streams the dump through. -/
def sha256Bytes (msg : List Nat) : List Nat :=
  ((toBlocks (sha256Pad msg)).foldl sha256Block sha256H0).flatMap (beBytes 4)

/-- Lower-case hex encoding of a byte list (`hex.EncodeToString`). -/
def hexEncode (bs : List Nat) : String :=
  String.mk (List.flatten (bs.map (fun b =>
    ["0123456789abcdef".data.getD (b / 16) '0', "0123456789abcdef".data.getD (b % 16) '0'])))

/-- `GetChecksum` (src/internal/migration/verifier.go lines 196-221):
stream the target dumper's raw output through SHA-256 and hex-encode the
digest; a dump failure is wrapped and returned instead.  (The hash
goroutine's `io.Copy` from the pipe cannot itself fail once the write side
is closed normally, so its error channel is nil here.) -/
def GetChecksum (v : DatabaseVerifier) : Except String String :=
  match v.targetDumper.Dump with
  | .error e => Except.error ("failed to dump database for checksum: " ++ e)
  | .ok bs => Except.ok (hexEncode (sha256Bytes bs))

/-- A non-terminal iteration of the comparison loop: both reads succeed in
full (nil error) and the dialect comparison of the two chunks finds them
equal, so the loop proceeds to the next chunk pair. -/
def ContinuePair (dt : DatabaseType) (s t : ReadResult) : Prop :=
  s.err = ReadErr.noErr ∧ t.err = ReadErr.noErr ∧
  compareChunks dt s.data t.data = Except.ok true

/-- The source stream of the spec's Postgres end-to-end scenario. -/
def pgSourceStream : List Nat :=
  strBytes "INSERT INTO t VALUES (1);\n-- Dumped on 2024-01-01\n"

/-- The target stream of the spec's Postgres end-to-end scenario: identical
except for the `-- Dumped on` timestamp line. -/
def pgTargetStream : List Nat :=
  strBytes "INSERT INTO t VALUES (1);\n-- Dumped on 2024-06-01\n"

/-- A Postgres verifier over the scenario's two producers, with the
default 10 MiB chunk size. -/
def pgScenarioVerifier : DatabaseVerifier :=
  { sourceDumper := { GetType := DatabaseType.Postgres, Dump := Except.ok pgSourceStream },
    targetDumper := { GetType := DatabaseType.Postgres, Dump := Except.ok pgTargetStream },
    chunkSize := defaultChunkSize }

set_option maxRecDepth 100000

/-! Helper lemmas: the split/join round trip behind normalizer idempotence. -/

theorem splitB_ne_nil (xs : List Nat) : splitB xs ≠ [] := by
  induction xs with
  | nil => simp [splitB]
  | cons b rest ih =>
    simp only [splitB]
    split <;> simp

theorem mem_splitB_no_nl : ∀ (xs l : List Nat), l ∈ splitB xs → 10 ∉ l := by
  intro xs
  induction xs with
  | nil =>
    intro l hl
    simp only [splitB, List.mem_singleton] at hl
    subst hl; simp
  | cons b rest ih =>
    intro l hl
    simp only [splitB] at hl
    by_cases hb : b = 10
    · rw [if_pos hb] at hl
      rcases List.mem_cons.mp hl with rfl | hl2
      · simp
      · exact ih l hl2
    · rw [if_neg hb] at hl
      cases hsp : splitB rest with
      | nil => exact absurd hsp (splitB_ne_nil rest)
      | cons l0 ls =>
        rw [hsp, List.headI_cons, List.tail_cons] at hl
        rcases List.mem_cons.mp hl with rfl | hl2
        · intro hmem
          rcases List.mem_cons.mp hmem with h10 | h10
          · exact hb h10.symm
          · exact ih l0 (by rw [hsp]; exact List.mem_cons_self l0 ls) h10
        · exact ih l (by rw [hsp]; exact List.mem_cons_of_mem l0 hl2)

theorem splitB_no_nl : ∀ (l : List Nat), 10 ∉ l → splitB l = [l] := by
  intro l
  induction l with
  | nil => intro _; rfl
  | cons b rest ih =>
    intro h
    have hb : ¬ b = 10 := by rintro rfl; exact h (List.mem_cons_self _ _)
    have hrest : 10 ∉ rest := fun hm => h (List.mem_cons_of_mem _ hm)
    simp only [splitB, ih hrest, if_neg hb, List.headI_cons, List.tail_cons]

theorem splitB_append_nl : ∀ (l r : List Nat), 10 ∉ l →
    splitB (l ++ 10 :: r) = l :: splitB r := by
  intro l r
  induction l with
  | nil => intro _; simp [splitB]
  | cons b rest ih =>
    intro h
    have hb : ¬ b = 10 := by rintro rfl; exact h (List.mem_cons_self _ _)
    have hrest : 10 ∉ rest := fun hm => h (List.mem_cons_of_mem _ hm)
    simp only [List.cons_append, splitB, List.append_eq, ih hrest, if_neg hb, List.headI_cons, List.tail_cons]

theorem splitB_joinB : ∀ (L : List (List Nat)), L ≠ [] → (∀ l ∈ L, 10 ∉ l) →
    splitB (joinB L) = L := by
  intro L
  induction L with
  | nil => intro h; exact absurd rfl h
  | cons l L' ih =>
    intro _ hno
    cases L' with
    | nil => simpa [joinB] using splitB_no_nl l (hno l (List.mem_cons_self _ _))
    | cons l2 L'' =>
      have h1 : 10 ∉ l := hno l (List.mem_cons_self _ _)
      have hj : joinB (l :: l2 :: L'') = l ++ 10 :: joinB (l2 :: L'') := rfl
      rw [hj, splitB_append_nl l _ h1,
        ih (by simp) (fun x hx => hno x (List.mem_cons_of_mem _ hx))]

theorem normCore (p : List Nat → Bool) (hp : p [] = false) (c : List Nat) :
    joinB ((splitB (joinB ((splitB c).filter (fun l => !p l)))).filter (fun l => !p l))
      = joinB ((splitB c).filter (fun l => !p l)) := by
  by_cases hKnil : (splitB c).filter (fun l => !p l) = []
  · rw [hKnil]
    show joinB ((splitB (joinB [])).filter _) = joinB []
    simp [joinB, splitB, hp]
  · have hmem : ∀ l ∈ (splitB c).filter (fun l => !p l), 10 ∉ l := fun l hl =>
      mem_splitB_no_nl c l (List.mem_filter.mp hl).1
    rw [splitB_joinB _ hKnil hmem,
      List.filter_eq_self.mpr (fun a ha => (List.mem_filter.mp ha).2)]

/-! Helper lemmas: the chunk comparison and the comparison loop. -/

theorem compareChunks_isOk (dt : DatabaseType) (s t : List Nat) :
    ∃ b, compareChunks dt s t = Except.ok b := by
  cases dt
  · exact ⟨s == t, rfl⟩
  · exact ⟨_, rfl⟩
  · exact ⟨_, rfl⟩

theorem isEnd_hardMsg {e : ReadErr} (h : e.isEnd = true) : e.hardMsg = none := by
  cases e <;> simp_all [ReadErr.isEnd, ReadErr.hardMsg]

theorem loop_cons_continue (dt : DatabaseType) (s t : ReadResult) (ss ts : List ReadResult)
    (hs : s.err = ReadErr.noErr) (ht : t.err = ReadErr.noErr)
    (hc : compareChunks dt s.data t.data = Except.ok true) :
    compareChunksLoop dt (s :: ss) (t :: ts) = compareChunksLoop dt ss ts := by
  simp [compareChunksLoop, hs, ht, hc, ReadErr.hardMsg, ReadErr.isEnd]

theorem loop_append_continue (dt : DatabaseType) :
    ∀ {ps pt : List ReadResult}, List.Forall₂ (ContinuePair dt) ps pt →
    ∀ (ss ts : List ReadResult),
    compareChunksLoop dt (ps ++ ss) (pt ++ ts) = compareChunksLoop dt ss ts := by
  intro ps pt h
  induction h with
  | nil => intro ss ts; rfl
  | cons hpair _ ih =>
    intro ss ts
    obtain ⟨hs, ht, hc⟩ := hpair
    rw [List.cons_append, List.cons_append, loop_cons_continue _ _ _ _ _ hs ht hc, ih]

theorem loop_cons_both_end (dt : DatabaseType) (s t : ReadResult) (ss ts : List ReadResult)
    (hs : s.err.isEnd = true) (ht : t.err.isEnd = true)
    (hc : compareChunks dt s.data t.data = Except.ok true) :
    compareChunksLoop dt (s :: ss) (t :: ts)
      = some (CmpOutcome.verdict (s.data.length == t.data.length)) := by
  simp [compareChunksLoop, isEnd_hardMsg hs, isEnd_hardMsg ht, hc, hs, ht]

theorem hardMsg_noErr : ReadErr.noErr.hardMsg = none := rfl

theorem isEnd_noErr : ReadErr.noErr.isEnd = false := rfl

theorem loop_cons_source_end (dt : DatabaseType) (s t : ReadResult) (ss ts : List ReadResult)
    (hs : s.err.isEnd = true) (ht : t.err = ReadErr.noErr) :
    compareChunksLoop dt (s :: ss) (t :: ts) = some (CmpOutcome.verdict false) := by
  obtain ⟨b, hb⟩ := compareChunks_isOk dt s.data t.data
  cases b
  · simp [compareChunksLoop, isEnd_hardMsg hs, ht, hardMsg_noErr, hb]
  · simp [compareChunksLoop, isEnd_hardMsg hs, ht, hardMsg_noErr, isEnd_noErr, hb, hs]

theorem loop_cons_target_end (dt : DatabaseType) (s t : ReadResult) (ss ts : List ReadResult)
    (hs : s.err = ReadErr.noErr) (ht : t.err.isEnd = true) :
    compareChunksLoop dt (s :: ss) (t :: ts) = some (CmpOutcome.verdict false) := by
  obtain ⟨b, hb⟩ := compareChunks_isOk dt s.data t.data
  cases b
  · simp [compareChunksLoop, hs, hardMsg_noErr, isEnd_hardMsg ht, hb]
  · simp [compareChunksLoop, hs, hardMsg_noErr, isEnd_noErr, isEnd_hardMsg ht, hb, ht]

theorem loop_no_normalize_fail (dt : DatabaseType) :
    ∀ (s t : List ReadResult) (r : CmpOutcome), compareChunksLoop dt s t = some r →
    ∀ e, r ≠ CmpOutcome.fail (CmpError.normalize e) := by
  intro s
  induction s with
  | nil => intro t r h e; cases t <;> simp [compareChunksLoop] at h
  | cons a as ih =>
    intro t r h e
    cases t with
    | nil => simp [compareChunksLoop] at h
    | cons b bs =>
      cases ha : a.err.hardMsg with
      | some m =>
        simp only [compareChunksLoop, ha, Option.some.injEq] at h
        subst h; simp
      | none =>
        cases hb2 : b.err.hardMsg with
        | some m =>
          simp only [compareChunksLoop, ha, hb2, Option.some.injEq] at h
          subst h; simp
        | none =>
          obtain ⟨bv, hbv⟩ := compareChunks_isOk dt a.data b.data
          cases bv
          · simp only [compareChunksLoop, ha, hb2, hbv] at h
            simp at h
            subst h; simp
          · simp only [compareChunksLoop, ha, hb2, hbv] at h
            simp at h
            split at h
            · split at h
              · rw [Option.some.injEq] at h; subst h; simp
              · rw [Option.some.injEq] at h; subst h; simp
            · split at h
              · rw [Option.some.injEq] at h; subst h; simp
              · exact ih bs r h e

theorem foldl_withChunkSize_pos (sizes : List Int) :
    ∀ v : DatabaseVerifier, 0 < v.chunkSize →
    0 < ((sizes.map WithChunkSize).foldl (fun v opt => opt v) v).chunkSize := by
  induction sizes with
  | nil => intro v hv; simpa using hv
  | cons n ns ih =>
    intro v hv
    simp only [List.map_cons, List.foldl_cons]
    apply ih
    by_cases hn : n > 0
    · simp [WithChunkSize, hn]
    · simp only [WithChunkSize, if_neg hn]; exact hv

/-! The claim theorems. -/

/-- C1: the claim states that two Postgres streams differing only in
normalizer-recognized noise lines (the spec's scenario: identical dumps up
to their `-- Dumped on` timestamp lines) compare Equal.  The cited
`compareReaders` compares Postgres chunks raw, without any normalization,
so on the scenario's streams it returns the NotEqual verdict
`(false, nil)` — evaluated here on the code as written. -/
theorem c1_postgres_noise_not_normalized :
    compareReaders pgScenarioVerifier pgSourceStream pgTargetStream
      = some (CmpOutcome.verdict false) := by rfl

/-- C2: the claim states that `VerifyContent` collects all three leg
outcomes and resolves them in a fixed priority order, independently of
arrival order.  The cited code is a single `select` that returns from the
first arriving outcome alone: for the same multiset of outcomes
(source-dump nil, target-dump nil, comparison mismatch), the verdict is
success when the source-dump outcome arrives first and the mismatch error
when the comparison outcome arrives first. -/
theorem c2_verify_content_first_arrival_wins :
    List.Perm
      [(Leg.sourceDump, (none : Option String)), (Leg.targetDump, none),
        (Leg.comparison, some mismatchMsg)]
      [(Leg.comparison, some mismatchMsg), (Leg.sourceDump, none), (Leg.targetDump, none)]
    ∧ VerifyContent [(Leg.sourceDump, none), (Leg.targetDump, none),
        (Leg.comparison, some mismatchMsg)] = none
    ∧ VerifyContent [(Leg.comparison, some mismatchMsg), (Leg.sourceDump, none),
        (Leg.targetDump, none)] = some mismatchMsg := by
  refine ⟨by decide, rfl, rfl⟩

/-- C3 counterexample: a success (nil restore outcome) arriving first is
not returned as overall migration success — `Manager.Migrate`'s wait loop
keeps waiting and surfaces the dump failure that arrives second. -/
theorem c3_counterexample_success_first_not_returned :
    migrateWait (restoreLegOutcome none) (dumpLegOutcome (some "boom"))
      = some ("dump failed: " ++ "boom")
    ∧ migrateWait (restoreLegOutcome none) (dumpLegOutcome (some "boom")) ≠ none := by
  refine ⟨rfl, by decide⟩

/-- C3 (amended): `Manager.Migrate` waits for both the dump and the
restore outcome; it returns success exactly when both are nil, returns the
first failure in arrival order otherwise, and each side's failure is
tagged with the failing side (`dump failed` / `restore failed`). -/
theorem c3_migrate_waits_for_both : ∀ o₁ o₂ : Option String,
    (migrateWait o₁ o₂ = none ↔ o₁ = none ∧ o₂ = none)
    ∧ (∀ e, o₁ = some e → migrateWait o₁ o₂ = some e)
    ∧ (∀ e, o₁ = none → o₂ = some e → migrateWait o₁ o₂ = some e)
    ∧ (∀ e, dumpLegOutcome (some e) = some ("dump failed: " ++ e))
    ∧ (∀ e, restoreLegOutcome (some e) = some ("restore failed: " ++ e)) := by
  intro o₁ o₂
  refine ⟨?_, ?_, ?_, fun e => rfl, fun e => rfl⟩
  · cases o₁ <;> cases o₂ <;> simp [migrateWait]
  · intro e h; subst h; rfl
  · intro e h1 h2; subst h1; subst h2; rfl

theorem c3_migrate_waits_for_both_witness :
    migrateWait none (some "dump failed: boom") = some "dump failed: boom" :=
  ((c3_migrate_waits_for_both none (some "dump failed: boom")).2.2.1)
    "dump failed: boom" rfl rfl

/-- C4: in `compareReaders`, after a prefix of iterations whose compared
(normalized) chunks were all equal, (a) if both sources reach
end-of-stream within the same iteration, and that iteration's chunks also
compare equal, the verdict is Equal exactly when the two final read byte
counts agree; (b) if the source ends in an iteration where the target read
succeeded in full, the verdict is NotEqual; (c) symmetrically when the
target ends and the source does not — all three with a nil error. -/
theorem c4_end_of_stream_semantics (dt : DatabaseType) (ps pt ss ts : List ReadResult)
    (sl tl : ReadResult) (hpre : List.Forall₂ (ContinuePair dt) ps pt) :
    (sl.err.isEnd = true → tl.err.isEnd = true →
      compareChunks dt sl.data tl.data = Except.ok true →
      compareChunksLoop dt (ps ++ sl :: ss) (pt ++ tl :: ts)
        = some (CmpOutcome.verdict (sl.data.length == tl.data.length)))
    ∧ (sl.err.isEnd = true → tl.err = ReadErr.noErr →
      compareChunksLoop dt (ps ++ sl :: ss) (pt ++ tl :: ts)
        = some (CmpOutcome.verdict false))
    ∧ (sl.err = ReadErr.noErr → tl.err.isEnd = true →
      compareChunksLoop dt (ps ++ sl :: ss) (pt ++ tl :: ts)
        = some (CmpOutcome.verdict false)) := by
  refine ⟨fun h1 h2 h3 => ?_, fun h1 h2 => ?_, fun h1 h2 => ?_⟩
  · rw [loop_append_continue dt hpre (sl :: ss) (tl :: ts),
      loop_cons_both_end dt sl tl ss ts h1 h2 h3]
  · rw [loop_append_continue dt hpre (sl :: ss) (tl :: ts),
      loop_cons_source_end dt sl tl ss ts h1 h2]
  · rw [loop_append_continue dt hpre (sl :: ss) (tl :: ts),
      loop_cons_target_end dt sl tl ss ts h1 h2]

theorem c4_end_of_stream_semantics_witness :
    compareChunksLoop DatabaseType.MySQL
      [⟨strBytes "x", ReadErr.unexpectedEof⟩] [⟨strBytes "x", ReadErr.unexpectedEof⟩]
      = some (CmpOutcome.verdict true) :=
  (c4_end_of_stream_semantics DatabaseType.MySQL [] [] [] []
    ⟨strBytes "x", ReadErr.unexpectedEof⟩ ⟨strBytes "x", ReadErr.unexpectedEof⟩
    List.Forall₂.nil).1 rfl rfl (by rfl)

/-- C5: whenever a read on either stream fails with an error that is
neither `io.EOF` nor `io.ErrUnexpectedEOF`, `compareReaders` returns at
that iteration a `fail` outcome wrapping the read failure (the source side
checked first, the target side when the source read was not a hard error);
a `fail` outcome is never equal to a boolean verdict, so a transport error
is always distinguishable from a content mismatch. -/
theorem c5_hard_read_error_outcome (dt : DatabaseType) (s t : ReadResult)
    (ss ts : List ReadResult) :
    (∀ m, s.err = ReadErr.hard m →
      compareChunksLoop dt (s :: ss) (t :: ts)
        = some (CmpOutcome.fail (CmpError.readSource ("error reading source: " ++ m))))
    ∧ (∀ m, s.err.hardMsg = none → t.err = ReadErr.hard m →
      compareChunksLoop dt (s :: ss) (t :: ts)
        = some (CmpOutcome.fail (CmpError.readTarget ("error reading target: " ++ m))))
    ∧ (∀ e b, CmpOutcome.fail e ≠ CmpOutcome.verdict b) := by
  refine ⟨?_, ?_, ?_⟩
  · intro m hm
    simp [compareChunksLoop, hm, ReadErr.hardMsg]
  · intro m hnone hm
    obtain ⟨sd, se⟩ := s
    cases se with
    | hard m' => simp [ReadErr.hardMsg] at hnone
    | noErr => simp [compareChunksLoop, hm, ReadErr.hardMsg]
    | eof => simp [compareChunksLoop, hm, ReadErr.hardMsg]
    | unexpectedEof => simp [compareChunksLoop, hm, ReadErr.hardMsg]
  · intro e b; simp

theorem c5_hard_read_error_outcome_witness :
    compareChunksLoop DatabaseType.Postgres
      [⟨[], ReadErr.hard "io broken"⟩] [⟨[], ReadErr.eof⟩]
      = some (CmpOutcome.fail (CmpError.readSource ("error reading source: " ++ "io broken"))) :=
  (c5_hard_read_error_outcome DatabaseType.Postgres
    ⟨[], ReadErr.hard "io broken"⟩ ⟨[], ReadErr.eof⟩ [] []).1 "io broken" rfl

/-- C6: `NewDatabaseVerifier` succeeds exactly when both dumpers are
present (non-nil) and report the same database type; a nil dumper or a
type mismatch is an error at construction, and every other input yields a
verifier (the comparison path itself contains no dialect check that could
fail later). -/
theorem c6_constructor_error_iff (src tgt : Option Dumper)
    (opts : List (DatabaseVerifier → DatabaseVerifier)) :
    (∃ v, NewDatabaseVerifier src tgt opts = Except.ok v)
      ↔ (∃ sd td, src = some sd ∧ tgt = some td ∧ sd.GetType = td.GetType) := by
  cases src with
  | none => simp [NewDatabaseVerifier]
  | some sd =>
    cases tgt with
    | none => simp [NewDatabaseVerifier]
    | some td =>
      by_cases h : sd.GetType = td.GetType
      · simp [NewDatabaseVerifier, h]
      · simp [NewDatabaseVerifier, h]

/-- C7: both dialect normalizers present in the code are idempotent — the
output of a normalization pass is a fixed point of that normalizer. -/
theorem c7_normalizers_idempotent : ∀ c r : List Nat,
    (normalizeMySQLDump c = Except.ok r → normalizeMySQLDump r = Except.ok r)
    ∧ (normalizeMongoDBDump c = Except.ok r → normalizeMongoDBDump r = Except.ok r) := by
  intro c r
  constructor
  · intro h
    have hr : joinB ((splitB c).filter (fun l => !mysqlNoiseLine l)) = r := by
      injection h
    subst hr
    exact congrArg Except.ok (normCore mysqlNoiseLine rfl c)
  · intro h
    have hr : joinB ((splitB c).filter (fun l => !mongoNoiseLine l)) = r := by
      injection h
    subst hr
    exact congrArg Except.ok (normCore mongoNoiseLine rfl c)

theorem c7_normalizers_idempotent_witness :
    normalizeMySQLDump (strBytes "a") = Except.ok (strBytes "a") :=
  (c7_normalizers_idempotent (strBytes "a\n-- MySQL dump 10.13") (strBytes "a")).1 (by rfl)

/-- C8: `GetChecksum` hex-encodes the SHA-256 digest of exactly the raw
bytes the target dumper writes (a function of those bytes alone, hence the
same digest for the same stream), returns the SHA-256 empty digest for a
dumper that writes zero bytes and succeeds, and wraps a dump failure. -/
theorem c8_checksum_raw_sha256 :
    (∀ (v : DatabaseVerifier) (bs : List Nat), v.targetDumper.Dump = Except.ok bs →
      GetChecksum v = Except.ok (hexEncode (sha256Bytes bs)))
    ∧ (∀ v : DatabaseVerifier, v.targetDumper.Dump = Except.ok [] →
      GetChecksum v
        = Except.ok "e3b0c44298fc1c149afbf4c8996fb92427ae41e4649b934ca495991b7852b855")
    ∧ (∀ (v : DatabaseVerifier) (e : String), v.targetDumper.Dump = Except.error e →
      GetChecksum v = Except.error ("failed to dump database for checksum: " ++ e)) := by
  refine ⟨?_, ?_, ?_⟩
  · intro v bs h; simp [GetChecksum, h]
  · intro v h
    simp only [GetChecksum, h]
    rfl
  · intro v e h; simp [GetChecksum, h]

theorem c8_checksum_raw_sha256_witness :
    GetChecksum
      { sourceDumper := { GetType := DatabaseType.Postgres, Dump := Except.ok [] },
        targetDumper := { GetType := DatabaseType.Postgres, Dump := Except.ok [] },
        chunkSize := defaultChunkSize }
      = Except.ok "e3b0c44298fc1c149afbf4c8996fb92427ae41e4649b934ca495991b7852b855" :=
  c8_checksum_raw_sha256.2.1 _ rfl

/-- C9: every verifier built by `NewDatabaseVerifier` has a strictly
positive chunk size: the default with no options is 10 MiB,
`WithChunkSize n` overrides the chunk size exactly when `n > 0` and leaves
the verifier unchanged otherwise, and any chain of `WithChunkSize` options
preserves positivity. -/
theorem c9_chunk_size_invariant :
    (∀ (sd td : Dumper) (v : DatabaseVerifier),
      NewDatabaseVerifier (some sd) (some td) [] = Except.ok v →
      v.chunkSize = 10 * 1024 * 1024)
    ∧ (∀ (n : Int) (v : DatabaseVerifier), 0 < n → (WithChunkSize n v).chunkSize = n)
    ∧ (∀ (n : Int) (v : DatabaseVerifier), n ≤ 0 → WithChunkSize n v = v)
    ∧ (∀ (src tgt : Option Dumper) (sizes : List Int) (v : DatabaseVerifier),
      NewDatabaseVerifier src tgt (sizes.map WithChunkSize) = Except.ok v →
      0 < v.chunkSize) := by
  refine ⟨?_, ?_, ?_, ?_⟩
  · intro sd td v h
    by_cases hty : sd.GetType = td.GetType
    · simp [NewDatabaseVerifier, hty] at h
      rw [← h]
      rfl
    · simp [NewDatabaseVerifier, hty] at h
  · intro n v hn; simp [WithChunkSize, hn]
  · intro n v hn
    have hng : ¬ n > 0 := not_lt.mpr hn
    simp [WithChunkSize, hng]
  · intro src tgt sizes v h
    cases src with
    | none => simp [NewDatabaseVerifier] at h
    | some sd =>
      cases tgt with
      | none => simp [NewDatabaseVerifier] at h
      | some td =>
        by_cases hty : sd.GetType = td.GetType
        · simp only [NewDatabaseVerifier, if_pos hty, Except.ok.injEq] at h
          rw [← h]
          exact foldl_withChunkSize_pos sizes _ (by norm_num [defaultChunkSize])
        · simp [NewDatabaseVerifier, hty] at h

theorem c9_chunk_size_invariant_witness :
    ({ sourceDumper := { GetType := DatabaseType.Postgres, Dump := Except.ok [] },
       targetDumper := { GetType := DatabaseType.Postgres, Dump := Except.ok [] },
       chunkSize := defaultChunkSize } : DatabaseVerifier).chunkSize = 10 * 1024 * 1024 :=
  c9_chunk_size_invariant.1
    { GetType := DatabaseType.Postgres, Dump := Except.ok [] }
    { GetType := DatabaseType.Postgres, Dump := Except.ok [] }
    _ rfl

/-- C10: both normalizers return a nil error on every input, so the
normalization-error branches of `compareReaders` are unreachable: no
comparison result can be a `normalize` failure. -/
theorem c10_normalization_error_unreachable :
    (∀ c : List Nat, (∃ r, normalizeMySQLDump c = Except.ok r)
      ∧ (∃ r, normalizeMongoDBDump c = Except.ok r))
    ∧ (∀ (dt : DatabaseType) (s t : List ReadResult) (r : CmpOutcome),
      compareChunksLoop dt s t = some r → ∀ e, r ≠ CmpOutcome.fail (CmpError.normalize e)) :=
  ⟨fun _ => ⟨⟨_, rfl⟩, ⟨_, rfl⟩⟩, fun dt => loop_no_normalize_fail dt⟩

theorem c10_normalization_error_unreachable_witness :
    CmpOutcome.verdict true ≠ CmpOutcome.fail (CmpError.normalize "boom") :=
  c10_normalization_error_unreachable.2 DatabaseType.MySQL
    [⟨[], ReadErr.eof⟩] [⟨[], ReadErr.eof⟩] (CmpOutcome.verdict true) (by rfl) "boom"
